import Mathlib

/-!
Shallow embedding of the galerio gallery generator (src/main.rs) and proofs
about its image pipeline: EXIF orientation reading, resize geometry with
panorama exemption, filename derivation, title sanitization, batch
orchestration, and archive writing.  Machine floats (f32/f64) used by the
source for aspect ratios and the resize kernel are modelled by exact
rationals; u32 quantities are modelled by naturals with the explicit
saturation the kernel performs.
-/

namespace Galerio

/-- An image orientation (src/main.rs, enum Orientation): a rotation-only
correction, one of four 90-degree multiples. -/
inductive Orientation
  | Deg0
  | Deg90
  | Deg180
  | Deg270
deriving DecidableEq

/-- The shape of an EXIF field value as far as get_orientation inspects it:
either a list of numeric shorts (exif::Value::Short, u16 entries modelled as
naturals) or any other variant. -/
inductive ExifValue
  | Short (data : List Nat)
  | OtherValue
deriving DecidableEq

/-- The environment get_orientation sees for one image path: whether
fs::File::open succeeds, whether ExifReader::read_from_container succeeds,
and the primary orientation field (get_field Tag::Orientation In::PRIMARY),
when present. -/
structure ExifFile where
  opens : Bool
  parses : Bool
  field : Option ExifValue
deriving DecidableEq

/-- The match on the first short of the orientation tag
(src/main.rs lines 162-168). -/
def orientationCode (code : Nat) : Orientation :=
  if code = 1 then Orientation.Deg0
  else if code = 8 then Orientation.Deg90
  else if code = 3 then Orientation.Deg180
  else if code = 6 then Orientation.Deg270
  else Orientation.Deg0

/-- Embedding of get_orientation (src/main.rs lines 149-170).  The two
fallible steps (file open, EXIF container parse) propagate as errors via
the question-mark operator; the field lookup chain degrades to Deg0. -/
def get_orientation (f : ExifFile) : Except String Orientation :=
  if f.opens then
    if f.parses then
      Except.ok
        (((f.field.bind fun val =>
            match val with
            | ExifValue.Short data => data.head?
            | ExifValue.OtherValue => none).map orientationCode).getD
          Orientation.Deg0)
    else Except.error "exif parse failed"
  else Except.error "file open failed"

/-- The call site in main (src/main.rs line 253):
get_orientation(f).unwrap_or(Orientation::Deg0). -/
def read_orientation (f : ExifFile) : Orientation :=
  match get_orientation f with
  | Except.ok o => o
  | Except.error _ => Orientation.Deg0

/-- Largest u32 value; the resize kernel saturates at it. -/
def U32MAX : Nat := 4294967295

/-- Round half away from zero, as f64::round does, for nonnegative inputs. -/
def rnd (x : ℚ) : ℤ := ⌊x + 1 / 2⌋

/-- Exact-rational model of the image crate resize_dimensions kernel with
fill = false, as used by DynamicImage::resize: scale both dimensions by the
smaller of the two bound-to-dimension quotients, round half away from zero,
clamp below to one pixel, and saturate at u32::MAX. -/
def resize_dimensions (width height nwidth nheight : Nat) : Nat × Nat :=
  let rW : ℚ := (nwidth : ℚ) / (width : ℚ)
  let rH : ℚ := (nheight : ℚ) / (height : ℚ)
  let scale : ℚ := min rW rH
  let nw : Nat := max (rnd ((width : ℚ) * scale)).toNat 1
  let nh : Nat := max (rnd ((height : ℚ) * scale)).toNat 1
  if U32MAX < nw then
    (U32MAX, max (rnd ((height : ℚ) * ((U32MAX : ℚ) / (width : ℚ)))).toNat 1)
  else if U32MAX < nh then
    (max (rnd ((width : ℚ) * ((U32MAX : ℚ) / (height : ℚ)))).toNat 1, U32MAX)
  else (nw, nh)

/-- Pixel dimensions after the corrective rotation applied in resize_image
(src/main.rs lines 120-125): Deg90 maps to rotate270, Deg180 to rotate180,
Deg270 to rotate90; quarter turns swap width and height. -/
def rotatedDims (o : Orientation) (wh : Nat × Nat) : Nat × Nat :=
  match o with
  | Orientation.Deg0 => wh
  | Orientation.Deg90 => (wh.2, wh.1)
  | Orientation.Deg180 => wh
  | Orientation.Deg270 => (wh.2, wh.1)

/-- Panorama test (src/main.rs line 116): aspect quotient w / h strictly
greater than two, computed over exact arithmetic (w greater than 2 h agrees
with the f32 comparison for all real image sizes, including h = 0, where
the float quotient is infinite). -/
def is_panorama (w h : Nat) : Bool := 2 * h < w

/-- Geometry of resize_image (src/main.rs lines 104-133): when the image is
a panorama and panorama detection is requested, the pixel buffer is left
untouched (only re-encoded); otherwise the corrective rotation is applied
and the result resized into the bounding box. -/
def resize_image_dims (w h maxW maxH : Nat) (o : Orientation)
    (panorama_detection : Bool) : Nat × Nat :=
  if is_panorama w h && panorama_detection then (w, h)
  else
    let r := rotatedDims o (w, h)
    resize_dimensions r.1 r.2 maxW maxH

/-- Rust char::is_ascii_alphanumeric. -/
def isAsciiAlphanumeric (c : Char) : Bool :=
  (decide ('A' ≤ c) && decide (c ≤ 'Z')) ||
  (decide ('a' ≤ c) && decide (c ≤ 'z')) ||
  (decide ('0' ≤ c) && decide (c ≤ '9'))

/-- The character class kept by the download-name sanitizer
(src/main.rs line 222). -/
def keepChar (c : Char) : Bool :=
  isAsciiAlphanumeric c || c == '-' || c == '_' || c == '.'

/-- Title sanitization (src/main.rs lines 218-223): map spaces to
underscores, then keep only ASCII alphanumerics, dash, underscore, dot. -/
def sanitize_title (title : String) : String :=
  String.mk ((title.data.map fun c => if c == ' ' then '_' else c).filter keepChar)

/-- Download ZIP filename determination (src/main.rs lines 215-225). -/
def download_filename (no_download : Bool) (title : String) : Option String :=
  if no_download then none
  else some (sanitize_title title ++ ".zip")

/-- Rust Path::file_stem restricted to a plain file name: the portion
before the last dot, where a dot in leading position starts no extension;
none only for an empty name. -/
def file_stem (s : String) : Option String :=
  if s.data = [] then none
  else if (s.data.drop 1).contains '.' then
    some (String.mk (((s.data.reverse.dropWhile fun c => c ≠ '.').drop 1).reverse))
  else some s

/-- Dropping the final ".thumb.jpg" from a thumbnail filename. -/
def stripThumbSuffix (s : String) : String :=
  String.mk (s.data.take (s.data.length - ".thumb.jpg".data.length))

example : file_stem "a.jpg" = some "a" := by decide
example : file_stem "a.JPG" = some "a" := by decide
example : file_stem "archive.tar.gz" = some "archive.tar" := by decide
example : file_stem ".hidden" = some ".hidden" := by decide
example : file_stem "noext" = some "noext" := by decide
example : sanitize_title "My Trip 2024" = "My_Trip_2024" := by decide
example : download_filename false "My Trip 2024" = some "My_Trip_2024.zip" := by
  decide

example : resize_dimensions 4000 2000 1200 300 = (600, 300) := by
  norm_num [resize_dimensions, rnd, U32MAX, min_def]
  omega

example : resize_image_dims 4000 2000 1200 300 Orientation.Deg0 false
    = (600, 300) := by
  norm_num [resize_image_dims, resize_dimensions, rotatedDims, is_panorama,
    rnd, U32MAX, min_def]
  omega

/-- Pixel dimensions of a decoded image (image crate DynamicImage, as far
as the pipeline observes it). -/
structure ImageData where
  width : Nat
  height : Nat
deriving DecidableEq

/-- Everything the filesystem and the image library answer for one input
path during the run: the EXIF view, the decode result of image::open, the
outcomes of JPEG encoding and of output-directory writes, the raw on-disk
bytes, and the JPEG bytes the encoder produces for this item's pixel
buffer at given dimensions. -/
structure FileEnv where
  exif : ExifFile
  decode : Except String ImageData
  encodeOk : Bool
  writeOk : Bool
  bytes : List Nat
  encodeBytes : Nat × Nat → List Nat

/-- Embedding of resize_image (src/main.rs lines 104-133) over a file
environment: decode the image, compute the output geometry per
resize_image_dims, then JPEG-encode; decode and encode failures propagate. -/
def resize_image_run (fe : FileEnv) (maxW maxH : Nat) (o : Orientation)
    (panorama_detection : Bool) : Except String (Nat × Nat × List Nat) :=
  match fe.decode with
  | Except.error e => Except.error e
  | Except.ok img =>
    if fe.encodeOk then
      let dims := resize_image_dims img.width img.height maxW maxH o
        panorama_detection
      Except.ok (dims.1, dims.2, fe.encodeBytes dims)
    else Except.error "encode failed"

/-- Embedding of get_dimensions (src/main.rs lines 98-101). -/
def get_dimensions (fe : FileEnv) : Except String (Nat × Nat) :=
  match fe.decode with
  | Except.error e => Except.error e
  | Except.ok img => Except.ok (img.width, img.height)

/-- The configuration surface of the run (struct Args, minus the two
directory paths, which the embedding abstracts into per-name
environments). -/
structure Config where
  title : String
  thumbnail_height : Nat
  max_large_size : Option Nat
  resize_include_panorama : Bool
  no_download : Bool
  skip_processing : Bool

/-- A gallery item as serialized into the template context
(struct Image, src/main.rs lines 81-85). -/
structure Image where
  filename_full : String
  filename_thumb : String
deriving DecidableEq, Inhabited

/-- What the full-size handling did for one item: byte-for-byte copy, or
re-encode at the given output dimensions. -/
inductive FullAction
  | copied
  | reencoded (dims : Nat × Nat)
deriving DecidableEq

/-- Observable outcome of processing one item: the manifest record, the
thumbnail geometry, the full-size action, the files written into the
output directory in order, and the archive entry appended, if any. -/
structure ItemOut where
  image : Image
  thumbDims : Option (Nat × Nat)
  full : Option FullAction
  writes : List (String × List Nat)
  archiveEntry : Option (String × List Nat)
deriving DecidableEq, Inhabited

/-- Reading back a path from the writes performed so far (fs::read on a
file in the output directory): the most recent write to that path. -/
def readBack (writes : List (String × List Nat)) (p : String) :
    Option (List Nat) :=
  (writes.reverse.find? fun w => w.1 == p).map fun w => w.2

/-- The full-size handling of one item (src/main.rs lines 266-287): when a
max size is configured and a dimension exceeds it, resize with panorama
detection set to the negation of resize_include_panorama and write;
otherwise copy the original bytes as-is. -/
def full_size_step (cfg : Config) (fe : FileEnv) (o : Orientation) :
    Except String (FullAction × List Nat) :=
  match cfg.max_large_size with
  | some max_size =>
    match get_dimensions fe with
    | Except.error e => Except.error e
    | Except.ok (w, h) =>
      if max_size < w || max_size < h then
        match resize_image_run fe max_size max_size o
            (!cfg.resize_include_panorama) with
        | Except.error e => Except.error e
        | Except.ok (lw, lh, lbytes) =>
          if fe.writeOk then
            Except.ok (FullAction.reencoded (lw, lh), lbytes)
          else Except.error "write failed"
      else
        if fe.writeOk then Except.ok (FullAction.copied, fe.bytes)
        else Except.error "copy failed"
  | none =>
    if fe.writeOk then Except.ok (FullAction.copied, fe.bytes)
    else Except.error "copy failed"

/-- Embedding of the per-item closure (src/main.rs lines 237-304).
Filenames are derived first (the stem unwrap aborts the item on a stemless
name; in the source this is a panic, which likewise aborts the run), then,
unless processing is skipped: orientation is read with unwrap_or Deg0, the
thumbnail is generated at bounding box (thumbnail_height * 4,
thumbnail_height) with panorama detection off and written, the full-size
step runs, and the archive entry is the read-back of the just-written
full-size file. -/
def processItem (cfg : Config) (fe : FileEnv) (name : String) :
    Except String ItemOut :=
  let filename_full := name
  match file_stem name with
  | none =>
    Except.error ("Could not determine file stem for file " ++ name)
  | some stem =>
    let filename_thumb := stem ++ ".thumb.jpg"
    if cfg.skip_processing then
      Except.ok ⟨⟨filename_full, filename_thumb⟩, none, none, [], none⟩
    else
      let orientation := read_orientation fe.exif
      match resize_image_run fe (cfg.thumbnail_height * 4)
          cfg.thumbnail_height orientation false with
      | Except.error e => Except.error e
      | Except.ok (tw, th, tbytes) =>
        if fe.writeOk then
          match full_size_step cfg fe orientation with
          | Except.error e => Except.error e
          | Except.ok (act, fbytes) =>
            let writes := [(filename_thumb, tbytes), (filename_full, fbytes)]
            let entry :=
              if cfg.no_download then none
              else (readBack writes filename_full).map fun b =>
                (filename_full, b)
            Except.ok ⟨⟨filename_full, filename_thumb⟩, some (tw, th),
              some act, writes, entry⟩
        else Except.error "write failed"

/-- One entry of the input-directory listing as the discovery loop sees it
(src/main.rs lines 195-211): whether the read_dir item resolved, whether it
is a regular file, whether its name is valid UTF-8, and the name. -/
structure DirEntry where
  readOk : Bool
  isFile : Bool
  nameUtf8 : Bool
  name : String

/-- The retention test of the discovery loop: resolved, regular file, and
a name ending in ".jpg" or ".JPG" (suffix test spelled on the character
lists, as Rust's ends_with is on the UTF-8 bytes). -/
def keepEntry (e : DirEntry) : Bool :=
  e.readOk && e.isFile &&
    (e.nameUtf8 && (".jpg".data.isSuffixOf e.name.data ||
      ".JPG".data.isSuffixOf e.name.data))

/-- Lexicographic order on file names, as Rust compares paths sharing one
parent directory: byte order of the UTF-8 encoded names, which coincides
with code-point lexicographic order on the character lists. -/
def nameLe (a b : String) : Prop := a.data ≤ b.data

instance : DecidableRel nameLe := fun a b =>
  (inferInstance : Decidable (a.data ≤ b.data))

instance : IsTotal String nameLe := ⟨fun a b => le_total a.data b.data⟩

instance : IsTrans String nameLe := ⟨fun _ _ _ h1 h2 => le_trans h1 h2⟩

/-- Discovery and ordering (src/main.rs lines 195-212): retained file
names, stably sorted.  All retained paths share the input directory as
parent, so the PathBuf sort is the lexicographic sort of the file
names. -/
def list_images (entries : List DirEntry) : List String :=
  List.insertionSort nameLe ((entries.filter keepEntry).map DirEntry.name)

/-- Collecting per-item results as rayon's collect over Result does: any
item error aborts the aggregation with an item's error, and successes keep
input order. -/
def mapExcept (f : α → Except ε β) : List α → Except ε (List β)
  | [] => Except.ok []
  | x :: xs =>
    match f x with
    | Except.error e => Except.error e
    | Except.ok y =>
      match mapExcept f xs with
      | Except.error e => Except.error e
      | Except.ok ys => Except.ok (y :: ys)

/-- The whole per-image phase of main: process every discovered file. -/
def run_items (cfg : Config) (env : String → FileEnv)
    (entries : List DirEntry) : Except String (List ItemOut) :=
  mapExcept (fun n => processItem cfg (env n) n) (list_images entries)

/-- The rendering context handed to the template engine, restricted to the
fields the claims speak about (struct TemplateContext). -/
structure TemplateContext where
  title : String
  download_filename : Option String
  images : List Image

/-- Manifest assembly (src/main.rs lines 235-320): the context is built
only after every item collected successfully. -/
def buildContext (cfg : Config) (env : String → FileEnv)
    (entries : List DirEntry) : Except String TemplateContext :=
  match run_items cfg env entries with
  | Except.error e => Except.error e
  | Except.ok outs =>
    Except.ok ⟨cfg.title, download_filename cfg.no_download cfg.title,
      outs.map fun o => o.image⟩

/-- Completion-order model of the parallel collect: worker i's result is
stored at slot i whenever item i completes; order lists the completion
sequence. -/
def scatter (n : Nat) (res : Nat → α) (order : List Nat) :
    List (Option α) :=
  order.foldl (fun acc i => acc.set i (some (res i))) (List.replicate n none)

/-- Membership in the character class [A-Za-z0-9._-], written out from the
specification's words for the refinement statement about archive naming. -/
def inFilenameClass (c : Char) : Bool :=
  (decide ('A' ≤ c) && decide (c ≤ 'Z')) ||
  (decide ('a' ≤ c) && decide (c ≤ 'z')) ||
  (decide ('0' ≤ c) && decide (c ≤ '9')) ||
  c == '.' || c == '_' || c == '-'

/-- Archive filename as the specification words it: replace each space
with an underscore, drop every character outside [A-Za-z0-9._-], and
append ".zip" — stated as one pass per character. -/
def archive_name_spec (title : String) : String :=
  String.mk (title.data.filterMap fun c =>
    let d := if c == ' ' then '_' else c
    if inFilenameClass d then some d else none) ++ ".zip"

/-- A concrete EXIF view: readable, parseable, orientation tag short 1. -/
def sampleExif : ExifFile := ⟨true, true, some (ExifValue.Short [1])⟩

/-- A concrete encoder model: the JPEG bytes for dimensions (w, h) are the
two-element list [w, h], so distinct geometries give distinct bytes. -/
def sampleEnc : Nat × Nat → List Nat := fun d => [d.1, d.2]

/-- A concrete 4000 x 2000 input file. -/
def sampleFeLarge : FileEnv :=
  ⟨sampleExif, Except.ok ⟨4000, 2000⟩, true, true, [7, 7], sampleEnc⟩

/-- A concrete 800 x 600 input file with raw bytes [9, 9, 9]. -/
def sampleFeSmall : FileEnv :=
  ⟨sampleExif, Except.ok ⟨800, 600⟩, true, true, [9, 9, 9], sampleEnc⟩

/-- A concrete configuration: thumbnail bound 300, max large size 1024,
panoramas exempted, download enabled, processing on. -/
def sampleCfg : Config := ⟨"My Trip 2024", 300, some 1024, false, false, false⟩

/-- A concrete configuration with processing skipped. -/
def sampleCfgSkip : Config := ⟨"t", 300, none, false, true, true⟩

/-- A concrete input file whose image data fails to decode. -/
def sampleFeBad : FileEnv :=
  ⟨sampleExif, Except.error "decode failed", true, true, [], sampleEnc⟩

/-- C1: for every image file, the Orientation Reader maps the primary EXIF
orientation tag value 1 to 0 degrees, 8 to 90, 3 to 180, and 6 to 270, and
maps every other tag value, a tag whose value is not a list of numeric
shorts (including an empty short list), or a missing tag to 0 degrees. -/
theorem orientation_tag_mapping (f : ExifFile)
    (ho : f.opens = true) (hp : f.parses = true) :
    (∀ rest, f.field = some (ExifValue.Short (1 :: rest)) →
        get_orientation f = Except.ok Orientation.Deg0) ∧
    (∀ rest, f.field = some (ExifValue.Short (8 :: rest)) →
        get_orientation f = Except.ok Orientation.Deg90) ∧
    (∀ rest, f.field = some (ExifValue.Short (3 :: rest)) →
        get_orientation f = Except.ok Orientation.Deg180) ∧
    (∀ rest, f.field = some (ExifValue.Short (6 :: rest)) →
        get_orientation f = Except.ok Orientation.Deg270) ∧
    (∀ v rest, f.field = some (ExifValue.Short (v :: rest)) →
        v ≠ 1 → v ≠ 3 → v ≠ 6 → v ≠ 8 →
        get_orientation f = Except.ok Orientation.Deg0) ∧
    (f.field = some (ExifValue.Short []) →
        get_orientation f = Except.ok Orientation.Deg0) ∧
    (f.field = some ExifValue.OtherValue →
        get_orientation f = Except.ok Orientation.Deg0) ∧
    (f.field = none → get_orientation f = Except.ok Orientation.Deg0) := by
  refine ⟨?_, ?_, ?_, ?_, ?_, ?_, ?_, ?_⟩ <;> intros <;>
    simp_all [get_orientation, orientationCode]

/-- Witness for C1: a file whose orientation short is 3 reads as 180
degrees. -/
theorem orientation_tag_mapping_witness :
    get_orientation ⟨true, true, some (ExifValue.Short [3])⟩
      = Except.ok Orientation.Deg180 :=
  (orientation_tag_mapping ⟨true, true, some (ExifValue.Short [3])⟩
    rfl rfl).2.2.1 [] rfl

/-- C2: the Orientation Reader as invoked by the pipeline never fails: if
the file cannot be opened, or its contents cannot be parsed as EXIF, or
get_orientation errors for any reason, the pipeline's orientation degrades
to 0 degrees, and in every case an orientation is produced. -/
theorem orientation_reader_never_fails (f : ExifFile) :
    (f.opens = false → read_orientation f = Orientation.Deg0) ∧
    (f.parses = false → read_orientation f = Orientation.Deg0) ∧
    (∀ e, get_orientation f = Except.error e →
        read_orientation f = Orientation.Deg0) ∧
    ∃ o : Orientation, read_orientation f = o := by
  refine ⟨?_, ?_, ?_, ⟨_, rfl⟩⟩
  · intro h
    simp [read_orientation, get_orientation, h]
  · intro h
    cases hop : f.opens <;> simp [read_orientation, get_orientation, h, hop]
  · intro e h
    simp [read_orientation, h]

/-- Witness for C2: a file that does not open reads as 0 degrees. -/
theorem orientation_reader_never_fails_witness :
    read_orientation ⟨false, true, none⟩ = Orientation.Deg0 :=
  (orientation_reader_never_fails ⟨false, true, none⟩).1 rfl

theorem keepChar_eq_inFilenameClass (c : Char) :
    keepChar c = inFilenameClass c := by
  rw [Bool.eq_iff_iff]
  simp [keepChar, inFilenameClass, isAsciiAlphanumeric]
  tauto

theorem sanitize_data (l : List Char) :
    (l.map fun c => if c == ' ' then '_' else c).filter keepChar
      = l.filterMap fun c =>
          let d := if c == ' ' then '_' else c
          if inFilenameClass d then some d else none := by
  induction l with
  | nil => rfl
  | cons c l ih =>
    simp only [List.map_cons, List.filter_cons, List.filterMap_cons,
      keepChar_eq_inFilenameClass]
    cases h : inFilenameClass (if c == ' ' then '_' else c)
    · simp only [h, Bool.false_eq_true, if_false]
      exact ih
    · simp only [h, if_true]
      rw [ih]

/-- C7: for every gallery title, the download archive filename is obtained
by replacing each space with an underscore, dropping every character
outside the class [A-Za-z0-9._-], and appending ".zip"; in particular the
title "My Trip 2024" yields "My_Trip_2024.zip". -/
theorem download_filename_correct (title : String) :
    download_filename false title = some (archive_name_spec title) ∧
    download_filename false "My Trip 2024" = some "My_Trip_2024.zip" := by
  refine ⟨?_, by decide⟩
  simp only [download_filename, Bool.false_eq_true, if_false,
    archive_name_spec, sanitize_title, Option.some.injEq]
  rw [sanitize_data]

theorem processItem_ok_image (cfg : Config) (fe : FileEnv)
    (name stem : String) (out : ItemOut)
    (hstem : file_stem name = some stem)
    (hout : processItem cfg fe name = Except.ok out) :
    out.image = ⟨name, stem ++ ".thumb.jpg"⟩ := by
  unfold processItem at hout
  rw [hstem] at hout
  dsimp only at hout
  split at hout
  · cases hout
    rfl
  · split at hout
    · cases hout
    · split at hout
      · split at hout
        · cases hout
        · cases hout
          rfl
      · cases hout

theorem stripThumbSuffix_append (s : String) :
    stripThumbSuffix (s ++ ".thumb.jpg") = s := by
  unfold stripThumbSuffix
  rw [String.data_append]
  have hlen : (s.data ++ ".thumb.jpg".data).length - ".thumb.jpg".data.length
      = s.data.length := by
    rw [List.length_append]
    omega
  rw [hlen, List.take_left]

/-- C8: for every source path with an extractable file stem, the derived
thumbnail filename equals the stem followed by ".thumb.jpg" and the full
filename equals the original file name unchanged; stripping the
".thumb.jpg" suffix recovers the stem, and two source files with the same
stem (for instance differing only in extension case) produce the same
thumbnail filename. -/
theorem item_filenames_roundtrip (cfg : Config) (fe : FileEnv)
    (name stem : String) (out : ItemOut)
    (hstem : file_stem name = some stem)
    (hout : processItem cfg fe name = Except.ok out) :
    out.image.filename_full = name ∧
    out.image.filename_thumb = stem ++ ".thumb.jpg" ∧
    stripThumbSuffix out.image.filename_thumb = stem ∧
    ∀ (fe2 : FileEnv) (name2 : String) (out2 : ItemOut),
      file_stem name2 = some stem →
      processItem cfg fe2 name2 = Except.ok out2 →
      out2.image.filename_thumb = out.image.filename_thumb := by
  have h1 := processItem_ok_image cfg fe name stem out hstem hout
  refine ⟨by rw [h1], by rw [h1], ?_, ?_⟩
  · rw [h1]
    exact stripThumbSuffix_append stem
  · intro fe2 name2 out2 hstem2 hout2
    rw [processItem_ok_image cfg fe2 name2 stem out2 hstem2 hout2, h1]

/-- Witness for C8: the sources "a.jpg" and "a.JPG", which differ only in
extension case, share the thumbnail filename "a.thumb.jpg". -/
theorem item_filenames_roundtrip_witness :
    (⟨⟨"a.JPG", "a.thumb.jpg"⟩, none, none, [], none⟩ : ItemOut).image.filename_thumb
      = (⟨⟨"a.jpg", "a.thumb.jpg"⟩, none, none, [], none⟩ : ItemOut).image.filename_thumb :=
  (item_filenames_roundtrip sampleCfgSkip sampleFeSmall "a.jpg" "a"
      ⟨⟨"a.jpg", "a.thumb.jpg"⟩, none, none, [], none⟩
      (by decide) (by rfl)).2.2.2
    sampleFeSmall "a.JPG"
    ⟨⟨"a.JPG", "a.thumb.jpg"⟩, none, none, [], none⟩
    (by decide) (by rfl)

theorem rnd_le_nat {x : ℚ} {m : Nat} (h : x ≤ (m : ℚ)) :
    (rnd x).toNat ≤ m := by
  rw [rnd, Int.toNat_le]
  have h2 : ⌊x + 1 / 2⌋ < (m : ℤ) + 1 := by
    rw [Int.floor_lt]
    push_cast
    linarith
  omega

theorem resize_dimensions_fits (w h mw mh : Nat)
    (hw : 0 < w) (hh : 0 < h) (hmw : 0 < mw) (hmh : 0 < mh)
    (hW : mw ≤ U32MAX) (hH : mh ≤ U32MAX) :
    (resize_dimensions w h mw mh).1 ≤ mw ∧
    (resize_dimensions w h mw mh).2 ≤ mh ∧
    ∃ s : ℚ, 0 ≤ s ∧
      (resize_dimensions w h mw mh).1 = max (rnd ((w : ℚ) * s)).toNat 1 ∧
      (resize_dimensions w h mw mh).2 = max (rnd ((h : ℚ) * s)).toNat 1 := by
  have hw' : (0 : ℚ) < (w : ℚ) := by exact_mod_cast hw
  have hh' : (0 : ℚ) < (h : ℚ) := by exact_mod_cast hh
  simp only [resize_dimensions]
  set s : ℚ := min ((mw : ℚ) / (w : ℚ)) ((mh : ℚ) / (h : ℚ)) with hs
  have hs0 : 0 ≤ s := le_min (by positivity) (by positivity)
  have hws : (w : ℚ) * s ≤ (mw : ℚ) := by
    calc (w : ℚ) * s ≤ (w : ℚ) * ((mw : ℚ) / (w : ℚ)) :=
          mul_le_mul_of_nonneg_left (min_le_left _ _) (le_of_lt hw')
      _ = (mw : ℚ) := by field_simp
  have hhs : (h : ℚ) * s ≤ (mh : ℚ) := by
    calc (h : ℚ) * s ≤ (h : ℚ) * ((mh : ℚ) / (h : ℚ)) :=
          mul_le_mul_of_nonneg_left (min_le_right _ _) (le_of_lt hh')
      _ = (mh : ℚ) := by field_simp
  have h1 : (rnd ((w : ℚ) * s)).toNat ≤ mw := rnd_le_nat hws
  have h2 : (rnd ((h : ℚ) * s)).toNat ≤ mh := rnd_le_nat hhs
  have hnw : max (rnd ((w : ℚ) * s)).toNat 1 ≤ mw := by omega
  have hnh : max (rnd ((h : ℚ) * s)).toNat 1 ≤ mh := by omega
  have hc1 : ¬ U32MAX < max (rnd ((w : ℚ) * s)).toNat 1 := by omega
  have hc2 : ¬ U32MAX < max (rnd ((h : ℚ) * s)).toNat 1 := by omega
  simp only [hc1, hc2, if_false]
  exact ⟨hnw, hnh, s, hs0, rfl, rfl⟩

theorem rotatedDims_pos (o : Orientation) (w h : Nat)
    (hw : 0 < w) (hh : 0 < h) :
    0 < (rotatedDims o (w, h)).1 ∧ 0 < (rotatedDims o (w, h)).2 := by
  cases o <;> exact ⟨by assumption, by assumption⟩

/-- C3: for a panorama (aspect quotient strictly above two) with the
panorama-exemption flag set, resize_image applies neither rotation nor
resizing, so output dimensions equal input dimensions; otherwise it
applies the corrective rotation and then resizes into the bounding box:
both output dimensions respect the box and both come from one common
scale factor (aspect preserved up to rounding). -/
theorem resize_image_panorama_exemption (w h maxW maxH : Nat)
    (o : Orientation) (pd : Bool)
    (hw : 0 < w) (hh : 0 < h) (hmw : 0 < maxW) (hmh : 0 < maxH)
    (hW : maxW ≤ U32MAX) (hH : maxH ≤ U32MAX) :
    (is_panorama w h = true → pd = true →
        resize_image_dims w h maxW maxH o pd = (w, h)) ∧
    (is_panorama w h = false ∨ pd = false →
        resize_image_dims w h maxW maxH o pd
            = resize_dimensions (rotatedDims o (w, h)).1
                (rotatedDims o (w, h)).2 maxW maxH ∧
        (resize_image_dims w h maxW maxH o pd).1 ≤ maxW ∧
        (resize_image_dims w h maxW maxH o pd).2 ≤ maxH ∧
        ∃ s : ℚ, 0 ≤ s ∧
          (resize_image_dims w h maxW maxH o pd).1
              = max (rnd (((rotatedDims o (w, h)).1 : ℚ) * s)).toNat 1 ∧
          (resize_image_dims w h maxW maxH o pd).2
              = max (rnd (((rotatedDims o (w, h)).2 : ℚ) * s)).toNat 1) := by
  constructor
  · intro h1 h2
    simp [resize_image_dims, h1, h2]
  · intro hcase
    have hcond : ¬(is_panorama w h && pd) = true := by
      rcases hcase with h1 | h1 <;> simp [h1]
    have heq : resize_image_dims w h maxW maxH o pd
        = resize_dimensions (rotatedDims o (w, h)).1
            (rotatedDims o (w, h)).2 maxW maxH := by
      simp [resize_image_dims, hcond]
    obtain ⟨hr1, hr2⟩ := rotatedDims_pos o w h hw hh
    obtain ⟨f1, f2, s, hs0, hs1, hs2⟩ :=
      resize_dimensions_fits _ _ maxW maxH hr1 hr2 hmw hmh hW hH
    refine ⟨heq, ?_, ?_, s, hs0, ?_, ?_⟩ <;> rw [heq]
    · exact f1
    · exact f2
    · exact hs1
    · exact hs2

/-- Witness for C3: a 5000 x 1000 panorama is passed through unchanged
when the exemption flag is set, and the 4000 x 2000 non-panorama is
resized per the kernel when the flag is clear. -/
theorem resize_image_panorama_exemption_witness :
    resize_image_dims 5000 1000 1024 1024 Orientation.Deg0 true
        = (5000, 1000) ∧
    resize_image_dims 4000 2000 1200 300 Orientation.Deg0 false
        = resize_dimensions 4000 2000 1200 300 :=
  ⟨(resize_image_panorama_exemption 5000 1000 1024 1024 Orientation.Deg0 true
      (by decide) (by decide) (by decide) (by decide) (by decide)
      (by decide)).1 (by decide) rfl,
   ((resize_image_panorama_exemption 4000 2000 1200 300 Orientation.Deg0 false
      (by decide) (by decide) (by decide) (by decide) (by decide)
      (by decide)).2 (Or.inr rfl)).1⟩

theorem resize_image_run_ok (fe : FileEnv) (maxW maxH : Nat)
    (o : Orientation) (pd : Bool) (res : Nat × Nat × List Nat)
    (h : resize_image_run fe maxW maxH o pd = Except.ok res) :
    ∃ img, fe.decode = Except.ok img ∧ fe.encodeOk = true ∧
      res = ((resize_image_dims img.width img.height maxW maxH o pd).1,
             (resize_image_dims img.width img.height maxW maxH o pd).2,
             fe.encodeBytes
               (resize_image_dims img.width img.height maxW maxH o pd)) := by
  unfold resize_image_run at h
  split at h
  · cases h
  · next img heq =>
    split at h
    · cases h
      exact ⟨img, heq, by assumption, rfl⟩
    · cases h

theorem full_size_step_none (cfg : Config) (fe : FileEnv) (o : Orientation)
    (res : FullAction × List Nat)
    (hmax : cfg.max_large_size = none)
    (h : full_size_step cfg fe o = Except.ok res) :
    res = (FullAction.copied, fe.bytes) ∧ fe.writeOk = true := by
  unfold full_size_step at h
  rw [hmax] at h
  dsimp only at h
  split at h
  · cases h
    exact ⟨rfl, by assumption⟩
  · cases h

theorem get_dimensions_ok (fe : FileEnv) (wh : Nat × Nat)
    (h : get_dimensions fe = Except.ok wh) :
    ∃ img, fe.decode = Except.ok img ∧ wh = (img.width, img.height) := by
  unfold get_dimensions at h
  split at h
  · cases h
  · next img heq =>
    cases h
    exact ⟨img, heq, rfl⟩

theorem full_size_step_some (cfg : Config) (fe : FileEnv) (o : Orientation)
    (m : Nat) (res : FullAction × List Nat)
    (hmax : cfg.max_large_size = some m)
    (h : full_size_step cfg fe o = Except.ok res) :
    ∃ img, fe.decode = Except.ok img ∧ fe.writeOk = true ∧
      ((m < img.width ∨ m < img.height) →
        res = (FullAction.reencoded (resize_image_dims img.width img.height
                 m m o (!cfg.resize_include_panorama)),
               fe.encodeBytes (resize_image_dims img.width img.height
                 m m o (!cfg.resize_include_panorama)))) ∧
      (img.width ≤ m → img.height ≤ m →
        res = (FullAction.copied, fe.bytes)) := by
  unfold full_size_step at h
  rw [hmax] at h
  dsimp only at h
  cases hgd : get_dimensions fe with
  | error e =>
    rw [hgd] at h
    cases h
  | ok wh =>
    rw [hgd] at h
    obtain ⟨img, hdec, hwh⟩ := get_dimensions_ok fe wh hgd
    subst hwh
    dsimp only at h
    split at h
    · next hcond =>
      split at h
      · cases h
      · next lw lh lbytes heqr =>
        split at h
        · next hwok =>
          cases h
          obtain ⟨img2, hdec2, henc2, hres⟩ :=
            resize_image_run_ok _ _ _ _ _ _ heqr
          rw [hdec] at hdec2
          injection hdec2 with h2
          subst h2
          simp only [Prod.mk.injEq] at hres
          obtain ⟨h1, h2, h3⟩ := hres
          subst h1
          subst h2
          subst h3
          refine ⟨img, hdec, hwok, fun _ => rfl, ?_⟩
          intro hle1 hle2
          exfalso
          simp only [Bool.or_eq_true, decide_eq_true_eq] at hcond
          rcases hcond with hx | hx <;> omega
        · cases h
    · next hcond =>
      split at h
      · next hwok =>
        cases h
        refine ⟨img, hdec, hwok, ?_, fun _ _ => rfl⟩
        intro hlt
        exfalso
        simp only [Bool.or_eq_true, decide_eq_true_eq, not_or] at hcond
        rcases hlt with hx | hx <;> omega
      · cases h

theorem readBack_last (thumb nameS : String) (t f : List Nat) :
    readBack [(thumb, t), (nameS, f)] nameS = some f := by
  simp [readBack]

theorem processItem_ok_shape (cfg : Config) (fe : FileEnv)
    (name stem : String) (out : ItemOut)
    (hstem : file_stem name = some stem)
    (hskip : cfg.skip_processing = false)
    (hout : processItem cfg fe name = Except.ok out) :
    ∃ act fbytes img,
      full_size_step cfg fe (read_orientation fe.exif)
          = Except.ok (act, fbytes) ∧
      fe.decode = Except.ok img ∧ fe.writeOk = true ∧
      out = ⟨⟨name, stem ++ ".thumb.jpg"⟩,
        some (resize_image_dims img.width img.height
          (cfg.thumbnail_height * 4) cfg.thumbnail_height
          (read_orientation fe.exif) false),
        some act,
        [(stem ++ ".thumb.jpg", fe.encodeBytes
            (resize_image_dims img.width img.height
              (cfg.thumbnail_height * 4) cfg.thumbnail_height
              (read_orientation fe.exif) false)),
         (name, fbytes)],
        if cfg.no_download then none else some (name, fbytes)⟩ := by
  unfold processItem at hout
  rw [hstem] at hout
  dsimp only at hout
  rw [hskip] at hout
  simp only [Bool.false_eq_true, if_false] at hout
  split at hout
  · cases hout
  · next tw th tbytes heqt =>
    split at hout
    · next hwok =>
      split at hout
      · cases hout
      · next act fbytes heqf =>
        cases hout
        obtain ⟨img, hdec, henc, hres⟩ := resize_image_run_ok _ _ _ _ _ _ heqt
        simp only [Prod.mk.injEq] at hres
        obtain ⟨h1, h2, h3⟩ := hres
        subst h1
        subst h2
        subst h3
        refine ⟨act, fbytes, img, heqf, hdec, hwok, ?_⟩
        simp [readBack_last]
    · cases hout

theorem sample_thumb_dims :
    resize_image_dims 4000 2000 1200 300 Orientation.Deg0 false
      = (600, 300) := by
  norm_num [resize_image_dims, resize_dimensions, rotatedDims, is_panorama,
    rnd, U32MAX, min_def]
  omega

theorem sample_small_thumb_dims :
    resize_image_dims 800 600 1200 300 Orientation.Deg0 false
      = (400, 300) := by
  norm_num [resize_image_dims, resize_dimensions, rotatedDims, is_panorama,
    rnd, U32MAX, min_def]
  omega

theorem sample_large_full_dims :
    resize_image_dims 4000 2000 1024 1024 Orientation.Deg0 true
      = (1024, 512) := by
  norm_num [resize_image_dims, resize_dimensions, rotatedDims, is_panorama,
    rnd, U32MAX, min_def]
  omega

theorem sampleLarge_eval :
    processItem sampleCfg sampleFeLarge "a.jpg" = Except.ok
      ⟨⟨"a.jpg", "a.thumb.jpg"⟩, some (600, 300),
       some (FullAction.reencoded (1024, 512)),
       [("a.thumb.jpg", [600, 300]), ("a.jpg", [1024, 512])],
       some ("a.jpg", [1024, 512])⟩ := by
  have hfs : file_stem "a.jpg" = some "a" := by decide
  have ho : read_orientation sampleExif = Orientation.Deg0 := by decide
  simp [processItem, hfs, full_size_step, resize_image_run, get_dimensions,
    readBack, sampleCfg, sampleFeLarge, sampleEnc, ho,
    sample_thumb_dims, sample_large_full_dims]

theorem sampleSmall_eval :
    processItem sampleCfg sampleFeSmall "a.jpg" = Except.ok
      ⟨⟨"a.jpg", "a.thumb.jpg"⟩, some (400, 300), some FullAction.copied,
       [("a.thumb.jpg", [400, 300]), ("a.jpg", [9, 9, 9])],
       some ("a.jpg", [9, 9, 9])⟩ := by
  have hfs : file_stem "a.jpg" = some "a" := by decide
  have ho : read_orientation sampleExif = Orientation.Deg0 := by decide
  simp [processItem, hfs, full_size_step, resize_image_run, get_dimensions,
    readBack, sampleCfg, sampleFeSmall, sampleEnc, ho,
    sample_small_thumb_dims]

/-- C4: for every processed image, thumbnail generation invokes the Image
Transformer with a bounding box of width exactly 4 times the configured
thumbnail height and height equal to the configured thumbnail height, with
the panorama exemption disabled; with bound 300, a 4000 x 2000 source
(ratio exactly 2, hence not a panorama) resizes to 600 x 300, fitting
within 1200 x 300. -/
theorem thumbnail_invocation (cfg : Config) (fe : FileEnv)
    (name stem : String) (out : ItemOut) (img : ImageData)
    (hstem : file_stem name = some stem)
    (hskip : cfg.skip_processing = false)
    (hdec : fe.decode = Except.ok img)
    (hout : processItem cfg fe name = Except.ok out) :
    out.thumbDims = some (resize_image_dims img.width img.height
        (cfg.thumbnail_height * 4) cfg.thumbnail_height
        (read_orientation fe.exif) false) ∧
    is_panorama 4000 2000 = false ∧
    resize_image_dims 4000 2000 (300 * 4) 300 Orientation.Deg0 false
        = (600, 300) := by
  obtain ⟨act, fbytes, img2, heqf, hdec2, hwok, hshape⟩ :=
    processItem_ok_shape cfg fe name stem out hstem hskip hout
  rw [hdec] at hdec2
  injection hdec2 with h2
  subst h2
  subst hshape
  refine ⟨rfl, by decide, ?_⟩
  have h12 : 300 * 4 = 1200 := by norm_num
  rw [h12]
  exact sample_thumb_dims

/-- Witness for C4: the 4000 x 2000 sample under thumbnail bound 300. -/
theorem thumbnail_invocation_witness :
    (⟨⟨"a.jpg", "a.thumb.jpg"⟩, some (600, 300),
        some (FullAction.reencoded (1024, 512)),
        [("a.thumb.jpg", [600, 300]), ("a.jpg", [1024, 512])],
        some ("a.jpg", [1024, 512])⟩ : ItemOut).thumbDims
      = some (resize_image_dims 4000 2000 (300 * 4) 300
          (read_orientation sampleExif) false) ∧
    is_panorama 4000 2000 = false ∧
    resize_image_dims 4000 2000 (300 * 4) 300 Orientation.Deg0 false
      = (600, 300) :=
  thumbnail_invocation sampleCfg sampleFeLarge "a.jpg" "a"
    ⟨⟨"a.jpg", "a.thumb.jpg"⟩, some (600, 300),
      some (FullAction.reencoded (1024, 512)),
      [("a.thumb.jpg", [600, 300]), ("a.jpg", [1024, 512])],
      some ("a.jpg", [1024, 512])⟩
    ⟨4000, 2000⟩ (by decide) rfl rfl sampleLarge_eval

/-- C5: for every processed image with a configured max large size, if a
dimension exceeds the max the full-size output is the re-encoded resize
(panorama detection set exactly to the negation of the
resize-include-panorama toggle); otherwise, and also when no max is
configured, the original file is copied byte-for-byte. -/
theorem full_size_policy (cfg : Config) (fe : FileEnv)
    (name stem : String) (out : ItemOut) (img : ImageData)
    (hstem : file_stem name = some stem)
    (hskip : cfg.skip_processing = false)
    (hdec : fe.decode = Except.ok img)
    (hout : processItem cfg fe name = Except.ok out) :
    (∀ m, cfg.max_large_size = some m →
        (m < img.width ∨ m < img.height) →
        out.full = some (FullAction.reencoded
            (resize_image_dims img.width img.height m m
              (read_orientation fe.exif) (!cfg.resize_include_panorama))) ∧
        readBack out.writes name = some (fe.encodeBytes
            (resize_image_dims img.width img.height m m
              (read_orientation fe.exif) (!cfg.resize_include_panorama)))) ∧
    (∀ m, cfg.max_large_size = some m →
        img.width ≤ m → img.height ≤ m →
        out.full = some FullAction.copied ∧
        readBack out.writes name = some fe.bytes) ∧
    (cfg.max_large_size = none →
        out.full = some FullAction.copied ∧
        readBack out.writes name = some fe.bytes) := by
  obtain ⟨act, fbytes, img2, heqf, hdec2, hwok, hshape⟩ :=
    processItem_ok_shape cfg fe name stem out hstem hskip hout
  rw [hdec] at hdec2
  injection hdec2 with h2
  subst h2
  subst hshape
  refine ⟨?_, ?_, ?_⟩
  · intro m hm hlt
    obtain ⟨img3, hdec3, hwok3, hre, hcopy⟩ :=
      full_size_step_some cfg fe _ m _ hm heqf
    rw [hdec] at hdec3
    injection hdec3 with h3
    subst h3
    have hres := hre hlt
    simp only [Prod.mk.injEq] at hres
    obtain ⟨ha, hb⟩ := hres
    subst ha
    subst hb
    exact ⟨rfl, readBack_last _ _ _ _⟩
  · intro m hm hle1 hle2
    obtain ⟨img3, hdec3, hwok3, hre, hcopy⟩ :=
      full_size_step_some cfg fe _ m _ hm heqf
    rw [hdec] at hdec3
    injection hdec3 with h3
    subst h3
    have hres := hcopy hle1 hle2
    simp only [Prod.mk.injEq] at hres
    obtain ⟨ha, hb⟩ := hres
    subst ha
    subst hb
    exact ⟨rfl, readBack_last _ _ _ _⟩
  · intro hm
    obtain ⟨hres, hwok3⟩ := full_size_step_none cfg fe _ _ hm heqf
    simp only [Prod.mk.injEq] at hres
    obtain ⟨ha, hb⟩ := hres
    subst ha
    subst hb
    exact ⟨rfl, readBack_last _ _ _ _⟩

/-- Witness for C5: with max large size 1024 and an 800 x 600 source, the
full-size output is an unchanged byte copy of the original. -/
theorem full_size_policy_witness :
    (⟨⟨"a.jpg", "a.thumb.jpg"⟩, some (400, 300), some FullAction.copied,
        [("a.thumb.jpg", [400, 300]), ("a.jpg", [9, 9, 9])],
        some ("a.jpg", [9, 9, 9])⟩ : ItemOut).full
      = some FullAction.copied ∧
    readBack [("a.thumb.jpg", [400, 300]), ("a.jpg", [9, 9, 9])] "a.jpg"
      = some [9, 9, 9] :=
  (full_size_policy sampleCfg sampleFeSmall "a.jpg" "a"
    ⟨⟨"a.jpg", "a.thumb.jpg"⟩, some (400, 300), some FullAction.copied,
      [("a.thumb.jpg", [400, 300]), ("a.jpg", [9, 9, 9])],
      some ("a.jpg", [9, 9, 9])⟩
    ⟨800, 600⟩ (by decide) rfl rfl sampleSmall_eval).2.1
    1024 rfl (by decide) (by decide)

/-- C10: for every processed image with archiving enabled, the bytes
appended to the archive under the image's full output filename are exactly
the bytes of the full-size output file already written to the output
directory (the read-back of the last write to that name), which is the
resized re-encoding whenever the image exceeded the configured max
size. -/
theorem archive_entry_is_written_file (cfg : Config) (fe : FileEnv)
    (name stem : String) (out : ItemOut)
    (hstem : file_stem name = some stem)
    (hskip : cfg.skip_processing = false)
    (hdl : cfg.no_download = false)
    (hout : processItem cfg fe name = Except.ok out) :
    (∃ b, out.archiveEntry = some (name, b) ∧
        readBack out.writes name = some b) ∧
    (∀ m img, cfg.max_large_size = some m → fe.decode = Except.ok img →
        (m < img.width ∨ m < img.height) →
        out.archiveEntry = some (name, fe.encodeBytes
          (resize_image_dims img.width img.height m m
            (read_orientation fe.exif) (!cfg.resize_include_panorama)))) := by
  obtain ⟨act, fbytes, img2, heqf, hdec2, hwok, hshape⟩ :=
    processItem_ok_shape cfg fe name stem out hstem hskip hout
  subst hshape
  constructor
  · refine ⟨fbytes, ?_, readBack_last _ _ _ _⟩
    simp [hdl]
  · intro m img hm hdec hlt
    obtain ⟨img3, hdec3, hwok3, hre, hcopy⟩ :=
      full_size_step_some cfg fe _ m _ hm heqf
    rw [hdec] at hdec3
    injection hdec3 with h3
    subst h3
    have hres := hre hlt
    simp only [Prod.mk.injEq] at hres
    obtain ⟨ha, hb⟩ := hres
    subst hb
    simp [hdl]

/-- Witness for C10: the oversized 4000 x 2000 sample's archive entry
carries the re-encoded resized bytes, not the original file bytes. -/
theorem archive_entry_is_written_file_witness :
    (⟨⟨"a.jpg", "a.thumb.jpg"⟩, some (600, 300),
        some (FullAction.reencoded (1024, 512)),
        [("a.thumb.jpg", [600, 300]), ("a.jpg", [1024, 512])],
        some ("a.jpg", [1024, 512])⟩ : ItemOut).archiveEntry
      = some ("a.jpg", sampleEnc (resize_image_dims 4000 2000 1024 1024
          (read_orientation sampleExif) true)) :=
  (archive_entry_is_written_file sampleCfg sampleFeLarge "a.jpg" "a"
    ⟨⟨"a.jpg", "a.thumb.jpg"⟩, some (600, 300),
      some (FullAction.reencoded (1024, 512)),
      [("a.thumb.jpg", [600, 300]), ("a.jpg", [1024, 512])],
      some ("a.jpg", [1024, 512])⟩
    (by decide) rfl rfl sampleLarge_eval).2
    1024 ⟨4000, 2000⟩ rfl rfl (Or.inl (by decide))

theorem scatter_foldl_getElem? {α : Type} (res : Nat → α)
    (order : List Nat) (init : List (Option α)) (j : Nat) :
    (order.foldl (fun acc i => acc.set i (some (res i))) init)[j]?
      = if j ∈ order ∧ j < init.length then some (some (res j))
        else init[j]? := by
  induction order generalizing init with
  | nil => simp
  | cons i rest ih =>
    simp only [List.foldl_cons]
    rw [ih, List.length_set, List.getElem?_set]
    by_cases hjl : j < init.length
    · by_cases hjr : j ∈ rest
      · rw [if_pos ⟨hjr, hjl⟩, if_pos ⟨List.mem_cons_of_mem i hjr, hjl⟩]
      · rw [if_neg (fun hc => hjr hc.1)]
        by_cases hji : i = j
        · subst hji
          rw [if_pos rfl, if_pos hjl,
            if_pos ⟨List.mem_cons_self i rest, hjl⟩]
        · rw [if_neg hji, if_neg (fun hc => ?_)]
          rcases List.mem_cons.mp hc.1 with h1 | h1
          · exact hji h1.symm
          · exact hjr h1
    · have hnone : init[j]? = none := List.getElem?_eq_none (by omega)
      conv_rhs => rw [if_neg (fun hc => hjl hc.2)]
      rw [if_neg (fun hc => hjl hc.2)]
      by_cases hji : i = j
      · subst hji
        rw [if_pos rfl, if_neg hjl, hnone]
      · rw [if_neg hji]

theorem scatter_complete {α : Type} (n : Nat) (res : Nat → α)
    (order : List Nat) (hcov : ∀ i, i < n → i ∈ order) :
    scatter n res order = (List.range n).map fun i => some (res i) := by
  apply List.ext_getElem?
  intro j
  rw [scatter, scatter_foldl_getElem?, List.length_replicate,
    List.getElem?_map]
  by_cases hj : j < n
  · rw [if_pos ⟨hcov j hj, hj⟩]
    have h2 : (List.range n)[j]? = some j := by simp [hj]
    rw [h2]
    rfl
  · rw [if_neg (fun hc => hj hc.2), List.getElem?_replicate, if_neg hj]
    have h2 : (List.range n)[j]? = none :=
      List.getElem?_eq_none (by simpa using le_of_not_lt hj)
    rw [h2]
    rfl

theorem map_getD_range {α : Type} [Inhabited α] (l : List α) :
    ((List.range l.length).map fun i => some (l.getD i default))
      = l.map some := by
  apply List.ext_getElem?
  intro j
  rw [List.getElem?_map, List.getElem?_map]
  by_cases hj : j < l.length
  · simp [hj, List.getD_eq_getElem l default hj,
      List.getElem?_eq_getElem hj]
  · have h1 : l[j]? = none := List.getElem?_eq_none (by omega)
    simp [hj, h1]
    omega

theorem mapExcept_ok_length {α β ε : Type} (f : α → Except ε β)
    (l : List α) (ys : List β) (h : mapExcept f l = Except.ok ys) :
    ys.length = l.length := by
  induction l generalizing ys with
  | nil =>
    cases h
    rfl
  | cons x xs ih =>
    unfold mapExcept at h
    split at h
    · cases h
    · split at h
      · cases h
      · next ys2 hys2 =>
        cases h
        simp [ih ys2 hys2]

theorem mapExcept_ok_map_eq {α β ε : Type} (f : α → Except ε β)
    (g : β → α) (hg : ∀ x y, f x = Except.ok y → g y = x)
    (l : List α) (ys : List β) (h : mapExcept f l = Except.ok ys) :
    ys.map g = l := by
  induction l generalizing ys with
  | nil =>
    cases h
    rfl
  | cons x xs ih =>
    unfold mapExcept at h
    split at h
    · cases h
    · next y hy =>
      split at h
      · cases h
      · next ys2 hys2 =>
        cases h
        simp [hg x y hy, ih ys2 hys2]

theorem mapExcept_ok_forall {α β ε : Type} (f : α → Except ε β)
    (l : List α) (ys : List β) (h : mapExcept f l = Except.ok ys) :
    ∀ x ∈ l, ∃ y, f x = Except.ok y := by
  induction l generalizing ys with
  | nil =>
    intro x hx
    cases hx
  | cons z zs ih =>
    intro x hx
    unfold mapExcept at h
    split at h
    · cases h
    · next y hy =>
      split at h
      · cases h
      · next ys2 hys2 =>
        rcases List.mem_cons.mp hx with rfl | hx2
        · exact ⟨y, hy⟩
        · exact ih ys2 hys2 x hx2

theorem mapExcept_error_of_mem {α β ε : Type} (f : α → Except ε β)
    (l : List α) (x : α) (e : ε) (hx : x ∈ l)
    (hfx : f x = Except.error e) :
    ∃ e2, mapExcept f l = Except.error e2 ∧
      ∃ x2 ∈ l, f x2 = Except.error e2 := by
  induction l with
  | nil => cases hx
  | cons y ys ih =>
    unfold mapExcept
    cases hfy : f y with
    | error e3 =>
      exact ⟨e3, rfl, y, List.mem_cons_self y ys, hfy⟩
    | ok b =>
      dsimp only
      rcases List.mem_cons.mp hx with rfl | hx2
      · rw [hfy] at hfx
        cases hfx
      · obtain ⟨e2, hmap, x2, hx2mem, hfx2⟩ := ih hx2
        rw [hmap]
        exact ⟨e2, rfl, x2, List.mem_cons_of_mem _ hx2mem, hfx2⟩

theorem processItem_ok_full_name (cfg : Config) (fe : FileEnv)
    (name : String) (out : ItemOut)
    (hout : processItem cfg fe name = Except.ok out) :
    out.image.filename_full = name := by
  cases hstem : file_stem name with
  | none =>
    unfold processItem at hout
    rw [hstem] at hout
    cases hout
  | some stem =>
    rw [processItem_ok_image cfg fe name stem out hstem hout]

/-- C6: for every input directory whose listing retains N regular files
named with a ".jpg" or ".JPG" suffix, a successful run's manifest image
list has exactly N entries, its full filenames are exactly the retained
names in lexicographic path order, and gathering the per-item results by
input index reproduces that sequential list under every completion order
of the parallel workers. -/
theorem manifest_complete_sorted (cfg : Config) (env : String → FileEnv)
    (entries : List DirEntry) (outs : List ItemOut)
    (h : run_items cfg env entries = Except.ok outs) :
    outs.length = (entries.filter keepEntry).length ∧
    outs.map (fun o => o.image.filename_full) = list_images entries ∧
    List.Sorted nameLe (list_images entries) ∧
    ∀ order : List Nat, (∀ i, i < outs.length → i ∈ order) →
      scatter outs.length (fun i => outs.getD i default) order
        = outs.map some := by
  have hlen2 : (list_images entries).length
      = (entries.filter keepEntry).length := by
    rw [list_images, (List.perm_insertionSort nameLe _).length_eq,
      List.length_map]
  refine ⟨?_, ?_, ?_, ?_⟩
  · rw [mapExcept_ok_length _ _ _ h]
    exact hlen2
  · exact mapExcept_ok_map_eq _ _
      (fun x y hy => processItem_ok_full_name cfg (env x) x y hy) _ _ h
  · exact List.sorted_insertionSort nameLe _
  · intro order hcov
    rw [scatter_complete _ _ _ hcov, map_getD_range]

/-- Witness for C6: two files listed out of order are processed into a
lexicographically sorted manifest, and the completion order 1-then-0
yields the same gathered list as sequential processing. -/
theorem manifest_complete_sorted_witness :
    scatter 2
        (fun i => ([⟨⟨"a.jpg", "a.thumb.jpg"⟩, none, none, [], none⟩,
          ⟨⟨"b.jpg", "b.thumb.jpg"⟩, none, none, [], none⟩] :
            List ItemOut).getD i default)
        [1, 0]
      = ([⟨⟨"a.jpg", "a.thumb.jpg"⟩, none, none, [], none⟩,
          ⟨⟨"b.jpg", "b.thumb.jpg"⟩, none, none, [], none⟩] :
            List ItemOut).map some :=
  (manifest_complete_sorted sampleCfgSkip (fun _ => sampleFeSmall)
      [⟨true, true, true, "b.jpg"⟩, ⟨true, true, true, "a.jpg"⟩]
      [⟨⟨"a.jpg", "a.thumb.jpg"⟩, none, none, [], none⟩,
       ⟨⟨"b.jpg", "b.thumb.jpg"⟩, none, none, [], none⟩]
      (by rfl)).2.2.2 [1, 0]
    (by
      intro i hi
      have h2 : i < 2 := by simpa using hi
      interval_cases i <;> decide)

/-- C9: if any single item's processing yields an unrecoverable error, the
entire run aborts with an error arising from one of the discovered files
and no manifest is built; conversely a successful run has processed every
discovered file, so no item's error is ever skipped. -/
theorem abort_on_item_error (cfg : Config) (env : String → FileEnv)
    (entries : List DirEntry) :
    ((∃ nm ∈ list_images entries, ∃ e,
        processItem cfg (env nm) nm = Except.error e) →
      ∃ e2, run_items cfg env entries = Except.error e2 ∧
        buildContext cfg env entries = Except.error e2 ∧
        ∃ nm ∈ list_images entries,
          processItem cfg (env nm) nm = Except.error e2) ∧
    (∀ outs, run_items cfg env entries = Except.ok outs →
      ∀ nm ∈ list_images entries, ∃ out,
        processItem cfg (env nm) nm = Except.ok out) := by
  constructor
  · rintro ⟨nm, hmem, e, herr⟩
    obtain ⟨e2, hrun, nm2, hmem2, herr2⟩ :=
      mapExcept_error_of_mem (fun n => processItem cfg (env n) n)
        (list_images entries) nm e hmem herr
    refine ⟨e2, hrun, ?_, nm2, hmem2, herr2⟩
    unfold buildContext
    rw [show run_items cfg env entries = Except.error e2 from hrun]
  · intro outs h nm hmem
    exact mapExcept_ok_forall _ _ outs h nm hmem

/-- Witness for C9: one file whose decode fails aborts the run with that
file's error and no context is built. -/
theorem abort_on_item_error_witness :
    ∃ e2, run_items sampleCfg (fun _ => sampleFeBad)
        [⟨true, true, true, "b.jpg"⟩] = Except.error e2 ∧
      buildContext sampleCfg (fun _ => sampleFeBad)
        [⟨true, true, true, "b.jpg"⟩] = Except.error e2 ∧
      ∃ nm ∈ list_images [⟨true, true, true, "b.jpg"⟩],
        processItem sampleCfg sampleFeBad nm = Except.error e2 :=
  (abort_on_item_error sampleCfg (fun _ => sampleFeBad)
      [⟨true, true, true, "b.jpg"⟩]).1
    ⟨"b.jpg", by decide, "decode failed", by rfl⟩

end Galerio
